import Mathlib

set_option maxRecDepth 100000

/-!
# Verification of the investment-api signal engine

Shallow embedding of `src/strategy.ts` (latest revision, before the
superseded copy): the indicator library (`calculateSMA`, `calculateRSI`,
`calculateBollingerBands`, `calculateADX`, `identifyPatterns`) and the
signal aggregator `getSignal`.

JavaScript numbers are modelled by `JsNum`: an exact rational, positive or
negative infinity, or NaN.  Floating-point rounding is idealised to exact
rational arithmetic; all zeros are treated as `+0` (every zero produced by
the engine arises from sums/differences of ordinary values, never from a
sign-preserving `-0` path that the code could observe).  `Math.random()`
draws are explicit inputs (one stream for the synthetic high series, one
for the low series), and `Math.sqrt` on non-negative finite arguments is a
model parameter `f : ℚ → ℚ`.
-/

/-- A JavaScript number: finite rational, +∞, −∞, or NaN. -/
inductive JsNum where
  | num : ℚ → JsNum
  | inf : JsNum
  | ninf : JsNum
  | nan : JsNum
deriving DecidableEq, Repr

namespace JsNum

/-- JS `isNaN`. -/
def isNaN : JsNum → Bool
  | nan => true
  | _ => false

/-- JS addition. -/
def add : JsNum → JsNum → JsNum
  | nan, _ => nan
  | _, nan => nan
  | inf, ninf => nan
  | ninf, inf => nan
  | inf, _ => inf
  | _, inf => inf
  | ninf, _ => ninf
  | _, ninf => ninf
  | num p, num q => num (p + q)

/-- JS negation. -/
def neg : JsNum → JsNum
  | nan => nan
  | inf => ninf
  | ninf => inf
  | num p => num (-p)

/-- JS subtraction. -/
def sub (a b : JsNum) : JsNum := add a (neg b)

/-- JS multiplication. -/
def mul : JsNum → JsNum → JsNum
  | nan, _ => nan
  | _, nan => nan
  | inf, inf => inf
  | inf, ninf => ninf
  | ninf, inf => ninf
  | ninf, ninf => inf
  | num p, inf => if 0 < p then inf else if p < 0 then ninf else nan
  | inf, num p => if 0 < p then inf else if p < 0 then ninf else nan
  | num p, ninf => if 0 < p then ninf else if p < 0 then inf else nan
  | ninf, num p => if 0 < p then ninf else if p < 0 then inf else nan
  | num p, num q => num (p * q)

/-- JS division (all zeros are +0, so `x/0` is `±∞` for `x ≠ 0` and `0/0` is NaN). -/
def div : JsNum → JsNum → JsNum
  | nan, _ => nan
  | _, nan => nan
  | inf, inf => nan
  | inf, ninf => nan
  | ninf, inf => nan
  | ninf, ninf => nan
  | num _, inf => num 0
  | num _, ninf => num 0
  | inf, num q => if 0 ≤ q then inf else ninf
  | ninf, num q => if 0 ≤ q then ninf else inf
  | num p, num q =>
      if q = 0 then (if 0 < p then inf else if p < 0 then ninf else nan)
      else num (p / q)

/-- JS `<` (false whenever an operand is NaN). -/
def lt : JsNum → JsNum → Bool
  | nan, _ => false
  | _, nan => false
  | num p, num q => decide (p < q)
  | num _, inf => true
  | inf, _ => false
  | ninf, ninf => false
  | ninf, _ => true
  | num _, ninf => false

/-- JS `<=` (false whenever an operand is NaN). -/
def le : JsNum → JsNum → Bool
  | nan, _ => false
  | _, nan => false
  | num p, num q => decide (p ≤ q)
  | num _, inf => true
  | inf, inf => true
  | inf, _ => false
  | ninf, _ => true
  | num _, ninf => false

/-- JS `Math.abs`. -/
def abs : JsNum → JsNum
  | nan => nan
  | inf => inf
  | ninf => inf
  | num p => num |p|

/-- JS `Math.min` of two arguments (NaN if either is NaN). -/
def min2 (a b : JsNum) : JsNum :=
  if a.isNaN || b.isNaN then nan else if lt a b then a else b

/-- JS `Math.max` of two arguments (NaN if either is NaN). -/
def max2 (a b : JsNum) : JsNum :=
  if a.isNaN || b.isNaN then nan else if lt a b then b else a

/-- JS `Math.sqrt`, parameterised by a model `f` of square root on
non-negative finite arguments. -/
def sqrtM (f : ℚ → ℚ) : JsNum → JsNum
  | nan => nan
  | inf => inf
  | ninf => nan
  | num p => if p < 0 then nan else num (f p)

end JsNum

theorem JsNum.add_num_num (p q : ℚ) : JsNum.add (.num p) (.num q) = .num (p + q) := rfl

theorem JsNum.add_zero_right (a : JsNum) : JsNum.add a (.num 0) = a := by
  cases a <;> simp [JsNum.add]

theorem JsNum.lt_num_num (p q : ℚ) : JsNum.lt (.num p) (.num q) = decide (p < q) := rfl

theorem JsNum.le_num_num (p q : ℚ) : JsNum.le (.num p) (.num q) = decide (p ≤ q) := rfl

theorem JsNum.not_lt_nan_left (b : JsNum) : JsNum.lt .nan b = false := by
  cases b <;> rfl

theorem JsNum.not_lt_nan_right (a : JsNum) : JsNum.lt a .nan = false := by
  cases a <;> rfl

/-! ## Series helpers

A price (or raw-indicator) series is a function `ℕ → ℚ`; the engine only
ever reads indices below the fetched length.  `sliceSum f a n` is the sum
of the `n` entries starting at index `a`, mirroring
`xs.slice(a, a + n).reduce((x, y) => x + y, 0)`.
-/

/-- Sum of `n` rational entries starting at index `a`. -/
def sliceSum (f : ℕ → ℚ) (a : ℕ) : ℕ → ℚ
  | 0 => 0
  | n + 1 => sliceSum f a n + f (a + n)

/-- Sum of `n` `JsNum` entries starting at index `a` (NaN-propagating),
mirroring `reduce` over a slice of a JS number array. -/
def sliceSumJs (f : ℕ → JsNum) (a : ℕ) : ℕ → JsNum
  | 0 => .num 0
  | n + 1 => JsNum.add (sliceSumJs f a n) (f (a + n))

/-! ## Indicator library (`src/strategy.ts` lines 130–390) -/

/-- `calculateSMA` (strategy.ts 130–136): arithmetic mean of the trailing
`period` values, NaN for `i < period - 1`. -/
def calculateSMA (d : ℕ → ℚ) (period i : ℕ) : JsNum :=
  if i + 1 < period then .nan
  else JsNum.div (.num (sliceSum d (i + 1 - period) period)) (.num period)

/-- Gains accumulator of `calculateRSI` (strategy.ts 145–151): positive
changes summed over the `n` indices starting at `a`. -/
def rsiGains (d : ℕ → ℚ) (a : ℕ) : ℕ → ℚ
  | 0 => 0
  | n + 1 =>
      rsiGains d a n + (if 0 < d (a + n) - d (a + n - 1) then d (a + n) - d (a + n - 1) else 0)

/-- Losses accumulator of `calculateRSI` (strategy.ts 145–151): absolute
values of non-positive changes summed over the `n` indices starting at `a`. -/
def rsiLosses (d : ℕ → ℚ) (a : ℕ) : ℕ → ℚ
  | 0 => 0
  | n + 1 =>
      rsiLosses d a n +
        (if 0 < d (a + n) - d (a + n - 1) then 0 else -(d (a + n) - d (a + n - 1)))

/-- `calculateRSI` (strategy.ts 138–156).  The loop runs `j` from
`i - period + 1` to `i`; `rs` is 100 when losses vanish, 0 when gains
vanish, else `gains / losses`. -/
def calculateRSI (d : ℕ → ℚ) (period i : ℕ) : JsNum :=
  if i < period then .nan
  else
    let gains := rsiGains d (i + 1 - period) period
    let losses := rsiLosses d (i + 1 - period) period
    let rs : ℚ := if losses = 0 then 100 else if gains = 0 then 0 else gains / losses
    .num (100 - 100 / (1 + rs))

/-- Sum of squared deviations in `calculateBollingerBands`
(strategy.ts 205–208): `j` runs from `max(0, i - period + 1)` to `i`. -/
def bollingerVarSum (d : ℕ → ℚ) (m : JsNum) (period i : ℕ) : JsNum :=
  sliceSumJs
    (fun j => JsNum.mul (JsNum.sub (.num (d j)) m) (JsNum.sub (.num (d j)) m))
    (i + 1 - period) (i + 1 - (i + 1 - period))

/-- Upper Bollinger band (strategy.ts 185–216), with `f` modelling
`Math.sqrt`.  NaN exactly where the middle band (SMA) is NaN. -/
def calculateBollingerUpper (d : ℕ → ℚ) (period : ℕ) (stdDev : ℚ) (f : ℚ → ℚ)
    (i : ℕ) : JsNum :=
  let m := calculateSMA d period i
  if m.isNaN then .nan
  else
    JsNum.add m
      (JsNum.mul (.num stdDev)
        (JsNum.sqrtM f (JsNum.div (bollingerVarSum d m period i) (.num period))))

/-- Lower Bollinger band (strategy.ts 185–216). -/
def calculateBollingerLower (d : ℕ → ℚ) (period : ℕ) (stdDev : ℚ) (f : ℚ → ℚ)
    (i : ℕ) : JsNum :=
  let m := calculateSMA d period i
  if m.isNaN then .nan
  else
    JsNum.sub m
      (JsNum.mul (.num stdDev)
        (JsNum.sqrtM f (JsNum.div (bollingerVarSum d m period i) (.num period))))

/-- True Range series of `calculateADX` (strategy.ts 233–245). -/
def adxTR (h l c : ℕ → ℚ) : ℕ → ℚ
  | 0 => h 0 - l 0
  | j + 1 =>
      max (h (j + 1) - l (j + 1)) (max |h (j + 1) - c j| |l (j + 1) - c j|)

/-- Plus directional movement series (strategy.ts 247–251). -/
def adxPDM (h l : ℕ → ℚ) : ℕ → ℚ
  | 0 => 0
  | j + 1 =>
      if h (j + 1) - h j > l j - l (j + 1) ∧ 0 < h (j + 1) - h j then h (j + 1) - h j else 0

/-- Minus directional movement series (strategy.ts 247–251). -/
def adxNDM (h l : ℕ → ℚ) : ℕ → ℚ
  | 0 => 0
  | j + 1 =>
      if l j - l (j + 1) > h (j + 1) - h j ∧ 0 < l j - l (j + 1) then l j - l (j + 1) else 0

/-- Wilder smoothing (strategy.ts 259–277), shared by the TR, +DM and −DM
series: NaN below index `period`, at `period` the sum of the raw values at
indices `i - period + 1 .. i` (the slice `(i - period + 1, i + 1)`), then
`prev - prev / period + current`. -/
def wilderSmooth (raw : ℕ → ℚ) (period : ℕ) : ℕ → JsNum
  | 0 =>
      if 0 < period then .nan else .num (sliceSum raw 1 0)
  | i + 1 =>
      if i + 1 < period then .nan
      else if i + 1 = period then .num (sliceSum raw (i + 2 - period) period)
      else
        let prev := wilderSmooth raw period i
        JsNum.add (JsNum.sub prev (JsNum.div prev (.num period))) (.num (raw (i + 1)))

/-- +DI series (strategy.ts 279–281). -/
def adxPDI (h l c : ℕ → ℚ) (period i : ℕ) : JsNum :=
  let v := wilderSmooth (adxPDM h l) period i
  let t := wilderSmooth (adxTR h l c) period i
  if v.isNaN || t.isNaN then .nan else JsNum.mul (.num 100) (JsNum.div v t)

/-- −DI series (strategy.ts 283–285). -/
def adxNDI (h l c : ℕ → ℚ) (period i : ℕ) : JsNum :=
  let v := wilderSmooth (adxNDM h l) period i
  let t := wilderSmooth (adxTR h l c) period i
  if v.isNaN || t.isNaN then .nan else JsNum.mul (.num 100) (JsNum.div v t)

/-- DX series (strategy.ts 287–291). -/
def adxDX (h l c : ℕ → ℚ) (period i : ℕ) : JsNum :=
  let p := adxPDI h l c period i
  let n := adxNDI h l c period i
  if p.isNaN || n.isNaN then .nan
  else JsNum.mul (.num 100) (JsNum.div (JsNum.abs (JsNum.sub p n)) (JsNum.add p n))

/-- ADX series (strategy.ts 293–304): NaN below `2·period - 1`, then the
plain average of the trailing `period` DX values, then Wilder-smoothed. -/
def adxSeq (h l c : ℕ → ℚ) (period : ℕ) : ℕ → JsNum
  | 0 =>
      if (0 : ℤ) < 2 * period - 1 then .nan
      else if (0 : ℤ) = 2 * period - 1 then
        JsNum.div (sliceSumJs (adxDX h l c period) (1 - period) period) (.num period)
      else .nan
  | i + 1 =>
      if (i + 1 : ℤ) < 2 * period - 1 then .nan
      else if (i + 1 : ℤ) = 2 * period - 1 then
        JsNum.div (sliceSumJs (adxDX h l c period) (i + 2 - period) period) (.num period)
      else
        JsNum.div
          (JsNum.add (JsNum.mul (adxSeq h l c period i) (.num ((period : ℚ) - 1)))
            (adxDX h l c period (i + 1)))
          (.num period)

/-- Bullish flag of `identifyPatterns` (strategy.ts 309–390): false below
index 2, else bullish engulfing, hammer, or morning star. -/
def identifyPatternsBullish (o h l c : ℕ → ℚ) (i : ℕ) : Bool :=
  if i < 2 then false
  else
    let bodySize := |c i - o i|
    let upperShadow := h i - max (o i) (c i)
    let lowerShadow := min (o i) (c i) - l i
    let prevBodySize := |c (i - 1) - o (i - 1)|
    let bullishEngulfing :=
      decide (c i > o i) && decide (o (i - 1) > c (i - 1)) &&
      decide (o i ≤ c (i - 1)) && decide (c i ≥ o (i - 1))
    let hammer :=
      decide (lowerShadow > bodySize * 2) && decide (upperShadow < bodySize * (1 / 2)) &&
      decide (c (i - 1) < o (i - 1)) && decide (c (i - 2) < o (i - 2))
    let morningStar :=
      decide (3 ≤ i) && decide (o (i - 2) > c (i - 2)) &&
      decide (|o (i - 1) - c (i - 1)| < prevBodySize * (3 / 10)) &&
      decide (c i > o i) && decide (c i > (o (i - 2) + c (i - 2)) / 2)
    bullishEngulfing || hammer || morningStar

/-- Bearish flag of `identifyPatterns` (strategy.ts 309–390): false below
index 2, else bearish engulfing, shooting star, or evening star. -/
def identifyPatternsBearish (o h l c : ℕ → ℚ) (i : ℕ) : Bool :=
  if i < 2 then false
  else
    let bodySize := |c i - o i|
    let upperShadow := h i - max (o i) (c i)
    let lowerShadow := min (o i) (c i) - l i
    let prevBodySize := |c (i - 1) - o (i - 1)|
    let bearishEngulfing :=
      decide (c i < o i) && decide (o (i - 1) < c (i - 1)) &&
      decide (o i ≥ c (i - 1)) && decide (c i ≤ o (i - 1))
    let shootingStar :=
      decide (upperShadow > bodySize * 2) && decide (lowerShadow < bodySize * (1 / 2)) &&
      decide (c (i - 1) > o (i - 1)) && decide (c (i - 2) > o (i - 2))
    let eveningStar :=
      decide (3 ≤ i) && decide (o (i - 2) < c (i - 2)) &&
      decide (|o (i - 1) - c (i - 1)| < prevBodySize * (3 / 10)) &&
      decide (c i < o i) && decide (c i < (o (i - 2) + c (i - 2)) / 2)
    bearishEngulfing || shootingStar || eveningStar

/-! ## Signal aggregator (`src/strategy.ts` lines 392–710) -/

/-- Weight table of `getSignal` (strategy.ts 442–448). -/
structure Weights where
  trend : ℚ
  momentum : ℚ
  volatility : ℚ
  adx : ℚ
  patterns : ℚ
deriving DecidableEq, Repr

/-- The configured weights: trend 35, momentum 20, volatility 15, ADX 10,
patterns 20. -/
def weights : Weights := ⟨35, 20, 15, 10, 20⟩

/-- Running scoring accumulators of `getSignal` (strategy.ts 437–439). -/
structure Scores where
  bullishSignals : JsNum
  bearishSignals : JsNum
  totalSignals : JsNum
deriving DecidableEq, Repr

/-- Trend category (strategy.ts 450–484): SMA crossover scoring. -/
def scoreTrend (smaS smaL : ℕ → JsNum) (i : ℕ) (s : Scores) : Scores :=
  if !(smaS i).isNaN && !(smaL i).isNaN then
    let s := { s with totalSignals := JsNum.add s.totalSignals (.num weights.trend) }
    if JsNum.lt (smaL i) (smaS i) then
      if decide (1 < i) && JsNum.le (smaS (i - 1)) (smaL (i - 1)) then
        { s with bullishSignals := JsNum.add s.bullishSignals (.num weights.trend) }
      else
        let trendStrength := JsNum.min2 (.num 100)
          (JsNum.mul (JsNum.sub (JsNum.div (smaS i) (smaL i)) (.num 1)) (.num 1000))
        { s with bullishSignals :=
            (JsNum.add s.bullishSignals
            (JsNum.mul (.num weights.trend)
              (JsNum.add (.num (7 / 10))
                (JsNum.div (JsNum.mul (.num (3 / 10)) trendStrength) (.num 100))))) }
    else if JsNum.lt (smaS i) (smaL i) then
      if decide (1 < i) && JsNum.le (smaL (i - 1)) (smaS (i - 1)) then
        { s with bearishSignals := JsNum.add s.bearishSignals (.num weights.trend) }
      else
        let trendStrength := JsNum.min2 (.num 100)
          (JsNum.mul (JsNum.sub (JsNum.div (smaL i) (smaS i)) (.num 1)) (.num 1000))
        { s with bearishSignals :=
            (JsNum.add s.bearishSignals
            (JsNum.mul (.num weights.trend)
              (JsNum.add (.num (7 / 10))
                (JsNum.div (JsNum.mul (.num (3 / 10)) trendStrength) (.num 100))))) }
    else s
  else s

/-- Momentum category (strategy.ts 486–510): RSI scoring. -/
def scoreMomentum (rsi : ℕ → JsNum) (i : ℕ) (s : Scores) : Scores :=
  if !(rsi i).isNaN then
    let s := { s with totalSignals := JsNum.add s.totalSignals (.num weights.momentum) }
    if JsNum.lt (.num 70) (rsi i) then
      let overboughtLevel := JsNum.min2 (.num 100)
        (JsNum.mul (JsNum.div (JsNum.sub (rsi i) (.num 70)) (.num 30)) (.num 100))
      { s with bearishSignals :=
          (JsNum.add s.bearishSignals
          (JsNum.mul (.num weights.momentum)
            (JsNum.add (.num (7 / 10))
              (JsNum.div (JsNum.mul (.num (3 / 10)) overboughtLevel) (.num 100))))) }
    else if JsNum.lt (rsi i) (.num 30) then
      let oversoldLevel := JsNum.min2 (.num 100)
        (JsNum.mul (JsNum.div (JsNum.sub (.num 30) (rsi i)) (.num 30)) (.num 100))
      { s with bullishSignals :=
          (JsNum.add s.bullishSignals
          (JsNum.mul (.num weights.momentum)
            (JsNum.add (.num (7 / 10))
              (JsNum.div (JsNum.mul (.num (3 / 10)) oversoldLevel) (.num 100))))) }
    else if JsNum.le (.num 30) (rsi i) && JsNum.lt (rsi i) (.num 50) &&
        decide (0 < i) && JsNum.lt (rsi (i - 1)) (rsi i) then
      { s with bullishSignals :=
          (JsNum.add s.bullishSignals
          (JsNum.mul (.num weights.momentum) (.num (7 / 10)))) }
    else if JsNum.lt (.num 50) (rsi i) && JsNum.le (rsi i) (.num 70) &&
        decide (0 < i) && JsNum.lt (rsi i) (rsi (i - 1)) then
      { s with bearishSignals :=
          (JsNum.add s.bearishSignals
          (JsNum.mul (.num weights.momentum) (.num (7 / 10)))) }
    else s
  else s

/-- Band-edge statement of the volatility category (strategy.ts
516–543). -/
def scoreVolatilityEdge (d : ℕ → ℚ) (bbU bbM bbL rsi : ℕ → JsNum) (i : ℕ)
    (s : Scores) : Scores :=
  if JsNum.lt (JsNum.add (bbM i) (JsNum.mul (.num (85 / 100)) (JsNum.sub (bbU i) (bbM i))))
      (.num (d i)) then
    if JsNum.lt (.num 65) (rsi i) then
      { s with bearishSignals :=
          (JsNum.add s.bearishSignals
          (JsNum.mul (.num weights.volatility) (.num (8 / 10)))) }
    else
      { s with bullishSignals :=
          (JsNum.add s.bullishSignals
          (JsNum.mul (.num weights.volatility) (.num (4 / 10)))) }
  else if JsNum.lt (.num (d i))
      (JsNum.sub (bbM i) (JsNum.mul (.num (85 / 100)) (JsNum.sub (bbM i) (bbL i)))) then
    if JsNum.lt (rsi i) (.num 35) then
      { s with bullishSignals :=
          (JsNum.add s.bullishSignals
          (JsNum.mul (.num weights.volatility) (.num (8 / 10)))) }
    else
      { s with bearishSignals :=
          (JsNum.add s.bearishSignals
          (JsNum.mul (.num weights.volatility) (.num (4 / 10)))) }
  else s

/-- Narrowing-bands statement of the volatility category (strategy.ts
544–561). -/
def scoreVolatilityNarrow (bbU bbM bbL smaS : ℕ → JsNum) (i : ℕ)
    (s1 : Scores) : Scores :=
  let bandWidth := JsNum.div (JsNum.sub (bbU i) (bbL i)) (bbM i)
  if decide (20 < i) then
    let prevBandWidth := JsNum.div (JsNum.sub (bbU (i - 20)) (bbL (i - 20))) (bbM (i - 20))
    if JsNum.lt bandWidth (JsNum.mul prevBandWidth (.num (7 / 10))) then
      if JsNum.lt (smaS (i - 3)) (smaS i) then
        { s1 with bullishSignals :=
            (JsNum.add s1.bullishSignals
            (JsNum.mul (.num weights.volatility) (.num (2 / 10)))) }
      else
        { s1 with bearishSignals :=
            (JsNum.add s1.bearishSignals
            (JsNum.mul (.num weights.volatility) (.num (2 / 10)))) }
    else s1
  else s1

/-- Volatility category (strategy.ts 512–562): Bollinger-band scoring.
The band-edge statement and the narrowing-bands statement are sequential
in the source and can both fire. -/
def scoreVolatility (d : ℕ → ℚ) (bbU bbM bbL rsi smaS : ℕ → JsNum) (i : ℕ)
    (s : Scores) : Scores :=
  if !(bbU i).isNaN && !(bbL i).isNaN then
    scoreVolatilityNarrow bbU bbM bbL smaS i
      (scoreVolatilityEdge d bbU bbM bbL rsi i
        { s with totalSignals := JsNum.add s.totalSignals (.num weights.volatility) })
  else s

/-- ADX category (strategy.ts 564–585): trend-strength scoring. -/
def scoreADX (adxV pdiV ndiV : ℕ → JsNum) (i : ℕ) (s : Scores) : Scores :=
  if !(adxV i).isNaN && !(pdiV i).isNaN && !(ndiV i).isNaN then
    let s := { s with totalSignals := JsNum.add s.totalSignals (.num weights.adx) }
    if JsNum.lt (.num 25) (adxV i) then
      let trendStrength := JsNum.min2 (.num 1)
        (JsNum.div (JsNum.sub (adxV i) (.num 25)) (.num 25))
      if JsNum.lt (ndiV i) (pdiV i) then
        { s with bullishSignals :=
            (JsNum.add s.bullishSignals
            (JsNum.mul (.num weights.adx) trendStrength)) }
      else if JsNum.lt (pdiV i) (ndiV i) then
        { s with bearishSignals :=
            (JsNum.add s.bearishSignals
            (JsNum.mul (.num weights.adx) trendStrength)) }
      else s
    else s
  else s

/-- Candlestick-pattern category (strategy.ts 587–598): full weight to each
flagged side. -/
def scorePatterns (patB patR : Bool) (s : Scores) : Scores :=
  if patB || patR then
    let s := { s with totalSignals := JsNum.add s.totalSignals (.num weights.patterns) }
    let s :=
      if patB then
        { s with bullishSignals := JsNum.add s.bullishSignals (.num weights.patterns) }
      else s
    if patR then
      { s with bearishSignals := JsNum.add s.bearishSignals (.num weights.patterns) }
    else s
  else s

/-- Normalisation (strategy.ts 600–604): rescale both accumulators to a
percentage of the available denominator when it is positive. -/
def normalizeScores (s : Scores) : Scores :=
  if JsNum.lt (.num 0) s.totalSignals then
    { s with
      bullishSignals := JsNum.mul (JsNum.div s.bullishSignals s.totalSignals) (.num 100)
      bearishSignals := JsNum.mul (JsNum.div s.bearishSignals s.totalSignals) (.num 100) }
  else s

/-- Valid-indicator counter (strategy.ts 650–658): trend pair, RSI,
Bollinger pair, ADX. -/
def validIndicatorsCount (smaSv smaLv rsiv bbUv bbLv adxv : JsNum) : ℕ :=
  (if !smaSv.isNaN && !smaLv.isNaN then 1 else 0) +
  (if !rsiv.isNaN then 1 else 0) +
  (if !bbUv.isNaN && !bbLv.isNaN then 1 else 0) +
  (if !adxv.isNaN then 1 else 0)

/-- Classification labels of the rendered signal text. -/
inductive SignalClass where
  | insufficientIndicators
  | strongBuy
  | buy
  | strongSell
  | sell
  | mixed
  | noClear
deriving DecidableEq, Repr

/-- Confidence tiers (strategy.ts 643–645). -/
inductive Confidence where
  | alta
  | media
  | baja
deriving DecidableEq, Repr

/-- Bollinger position reported in the rendered analysis (strategy.ts
632–640). -/
inductive BBPos where
  | overbought
  | oversold
  | insideBands
deriving DecidableEq, Repr

/-- The data determining the rendered `getSignal` text: both normalized
scores, the confidence tier, the classification, and every per-indicator
line of the detailed analysis. -/
structure SignalResult where
  price : ℚ
  bullishSignals : JsNum
  bearishSignals : JsNum
  totalSignals : JsNum
  validCount : ℕ
  classification : SignalClass
  confidence : Confidence
  trendShown : Option Bool
  rsiShown : Option JsNum
  bbShown : Option BBPos
deriving DecidableEq, Repr

/-- Core analysis of `getSignal` (strategy.ts 416–706) on the fetched
closes `data` and the synthetic `high`/`low` series, after the length
guard.  All series are read through `getD _ 0`; every access stays below
`data.length`, so the defaults are never observed. -/
def analyzeCore (data hiL loL : List ℚ) (interval : String) (f : ℚ → ℚ) : SignalResult :=
  let d := fun j => data.getD j 0
  let high := fun j => hiL.getD j 0
  let low := fun j => loL.getD j 0
  let op := fun j => if 0 < j then d (j - 1) else d j
  let n := data.length
  let i := n - 1
  let pS : ℕ := if interval = "1d" then 50 else 10
  let pL : ℕ := if interval = "1d" then 200 else 30
  let smaS := calculateSMA d pS
  let smaL := calculateSMA d pL
  let rsi := calculateRSI d 14
  let bbU := calculateBollingerUpper d 20 2 f
  let bbL := calculateBollingerLower d 20 2 f
  let bbM := calculateSMA d 20
  let adxV := adxSeq high low d 14
  let pdiV := adxPDI high low d 14
  let ndiV := adxNDI high low d 14
  let patB := identifyPatternsBullish op high low d i
  let patR := identifyPatternsBearish op high low d i
  let s5 :=
    scorePatterns patB patR
      (scoreADX adxV pdiV ndiV i
        (scoreVolatility d bbU bbM bbL rsi smaS i
          (scoreMomentum rsi i
            (scoreTrend smaS smaL i ⟨.num 0, .num 0, .num 0⟩))))
  let s6 := normalizeScores s5
  let vc := validIndicatorsCount (smaS i) (smaL i) (rsi i) (bbU i) (bbL i) (adxV i)
  let cls :=
    if vc < 3 then SignalClass.insufficientIndicators
    else if JsNum.lt (JsNum.add s6.bearishSignals (.num 10)) s6.bullishSignals then
      if JsNum.lt (smaL i) (smaS i) ||
          (JsNum.lt (rsi i) (.num 50) && !(rsi i).isNaN) then
        if JsNum.lt (.num 70) s6.bullishSignals then SignalClass.strongBuy else SignalClass.buy
      else SignalClass.mixed
    else if JsNum.lt (JsNum.add s6.bullishSignals (.num 10)) s6.bearishSignals then
      if JsNum.lt (smaS i) (smaL i) ||
          (JsNum.lt (.num 50) (rsi i) && !(rsi i).isNaN) then
        if JsNum.lt (.num 70) s6.bearishSignals then SignalClass.strongSell else SignalClass.sell
      else SignalClass.mixed
    else SignalClass.noClear
  let strength := JsNum.max2 s6.bullishSignals s6.bearishSignals
  let conf :=
    if JsNum.le (.num 70) strength then Confidence.alta
    else if JsNum.le (.num 40) strength then Confidence.media
    else Confidence.baja
  { price := d i
    bullishSignals := s6.bullishSignals
    bearishSignals := s6.bearishSignals
    totalSignals := s6.totalSignals
    validCount := vc
    classification := cls
    confidence := conf
    trendShown :=
      if !(smaS i).isNaN && !(smaL i).isNaN then some (JsNum.lt (smaL i) (smaS i)) else none
    rsiShown := if !(rsi i).isNaN then some (rsi i) else none
    bbShown :=
      if !(bbU i).isNaN && !(bbL i).isNaN then
        some (if JsNum.lt (bbU i) (.num (d i)) then BBPos.overbought
          else if JsNum.lt (.num (d i)) (bbL i) then BBPos.oversold
          else BBPos.insideBands)
      else none }

/-- `getSignal`'s synthetic OHLC step (strategy.ts 416–420): the jitter
streams `jHi`, `jLo` model the successive `Math.random()` draws of the
`high` and `low` maps. -/
def analyzeData (data : List ℚ) (interval : String) (jHi jLo : ℕ → ℚ) (f : ℚ → ℚ) :
    SignalResult :=
  analyzeCore data
    ((List.range data.length).map fun j => data.getD j 0 * (1 + (1 / 100) * jHi j))
    ((List.range data.length).map fun j => data.getD j 0 * (1 - (1 / 100) * jLo j))
    interval f

/-- Interval-dependent minimum series length (strategy.ts 400–409). -/
def requiredDataPoints (interval : String) : ℕ :=
  if interval = "1d" then 15
  else if interval = "1wk" then 10
  else if interval = "1mo" then 6
  else 10

/-- Classes of strings returned by `getSignal`: the `catch` text, the
short-series early return, or a rendered analysis. -/
inductive GetSignalOutput where
  | failureText : String → GetSignalOutput
  | shortSeries : String → GetSignalOutput
  | analysis : SignalResult → GetSignalOutput
deriving DecidableEq, Repr

/-- Recogniser for the `catch`-produced failure text. -/
def GetSignalOutput.isFailureText : GetSignalOutput → Bool
  | .failureText _ => true
  | _ => false

/-- `getSignal` (strategy.ts 392–710).  The awaited `getHistoricalData`
outcome is the `Except` argument: a `.error` models the fetch rejecting
with a terminal error, which the surrounding `try`/`catch` converts into
the analysis-failed text (strategy.ts 707–709). -/
def getSignal (fetched : Except String (List ℚ)) (symbol interval : String)
    (jHi jLo : ℕ → ℚ) (f : ℚ → ℚ) : GetSignalOutput :=
  match fetched with
  | .error msg => .failureText ("Error al analizar " ++ symbol ++ ": " ++ msg)
  | .ok data =>
      if data.length < requiredDataPoints interval then
        .shortSeries ("Datos insuficientes para " ++ symbol)
      else .analysis (analyzeData data interval jHi jLo f)

/-- Fetch-window width in seconds chosen by `getHistoricalData`
(strategy.ts 29–47): `period2 - period1` as a function of the interval. -/
def fetchWindowSeconds (interval : String) : ℤ :=
  if interval = "1d" then 90 * 24 * 60 * 60
  else if interval = "1wk" then 365 * 24 * 60 * 60
  else if interval = "1mo" then 5 * 365 * 24 * 60 * 60
  else 30 * 24 * 60 * 60

/-! ## Spec-side definitions

These follow the wording of the specification, to be compared with the
definitions translated from the source. -/

/-- Modelled from the spec wording of the classification step
(spec §4.3 step 5): minimum-indicator guard, 10-point lead margin,
one-primary-indicator confirmation, 70-point strong threshold. -/
def specClassification (validCount : ℕ) (bull bear smaSv smaLv rsiv : JsNum) :
    SignalClass :=
  if validCount < 3 then .insufficientIndicators
  else if JsNum.lt (JsNum.add bear (.num 10)) bull then
    if JsNum.lt smaLv smaSv || JsNum.lt rsiv (.num 50) then
      if JsNum.lt (.num 70) bull then .strongBuy else .buy
    else .mixed
  else if JsNum.lt (JsNum.add bull (.num 10)) bear then
    if JsNum.lt smaSv smaLv || JsNum.lt (.num 50) rsiv then
      if JsNum.lt (.num 70) bear then .strongSell else .sell
    else .mixed
  else .noClear

/-- Spec-side RSI gains: sum of the positive changes over the trailing
`period` changes ending at index `i`. -/
def specGains (d : ℕ → ℚ) (period i : ℕ) : ℚ :=
  ∑ j ∈ Finset.Icc (i + 1 - period) i, max (d j - d (j - 1)) 0

/-- Spec-side RSI losses: sum of the absolute values of the negative
changes over the trailing `period` changes ending at index `i`. -/
def specLosses (d : ℕ → ℚ) (period i : ℕ) : ℚ :=
  ∑ j ∈ Finset.Icc (i + 1 - period) i, max (d (j - 1) - d j) 0

/-- Spec-side RS convention: 100 when losses vanish, 0 when gains vanish,
else `gains / losses`. -/
def specRS (gains losses : ℚ) : ℚ :=
  if losses = 0 then 100 else if gains = 0 then 0 else gains / losses

/-! ## Concrete inputs used by counterexamples and witnesses -/

/-- The all-zeros jitter stream (every `Math.random()` draw is 0). -/
def jzero : ℕ → ℚ := fun _ => 0

/-- Jitter stream drawing 1/2 on the tenth call and 0 elsewhere. -/
def jHalf9 : ℕ → ℚ := fun k => if k = 9 then 1 / 2 else 0

/-- Jitter stream agreeing with `jzero` on the first ten draws only. -/
def jtail7 : ℕ → ℚ := fun k => if k < 10 then 0 else 7

/-- Degenerate square-root model (any model works where the square root is
never taken on a defined value). -/
def sqrt0 : ℚ → ℚ := fun _ => 0

/-- Ten weekly closes ending with two bearish bars and a tiny final body:
with zero jitter no candlestick pattern fires, while a low-side jitter on
the last bar produces a hammer. -/
def dataC2 : List ℚ := [100, 100, 100, 100, 100, 100, 102, 101, 100, 999 / 10]

/-- Thirty weekly closes with a negative long average and positive short
average: the trend ratio term drives the bullish accumulator negative. -/
def dataC9 : List ℚ := List.replicate 20 (-100) ++ List.replicate 10 10

/-- Ten positive weekly closes. -/
def dataPos : List ℚ := [100, 101, 102, 101, 100, 99, 100, 101, 102, 103]

/-- Raw series whose first entry differs from the later ones, separating
the slice `(1, period+1)` from the first `period` indices. -/
def c5raw : ℕ → ℚ := fun j => if j = 0 then 5 else 1

/-- Highs of a four-bar OHLC input for the ADX warm-up counterexample. -/
def c6h : ℕ → ℚ := fun j => [(2 : ℚ), 4, 6, 8].getD j 0

/-- Lows of the ADX warm-up counterexample. -/
def c6l : ℕ → ℚ := fun j => [(1 : ℚ), 2, 3, 4].getD j 0

/-- Closes of the ADX warm-up counterexample. -/
def c6c : ℕ → ℚ := fun j => [(3 / 2 : ℚ), 3, 5, 7].getD j 0

/-- Opens of a three-bar input whose third bar is a bullish engulfing. -/
def c8o : ℕ → ℚ := fun j => [(10 : ℚ), 10, 8].getD j 0

/-- Highs of the three-bar pattern counterexample. -/
def c8h : ℕ → ℚ := fun j => [(21 / 2 : ℚ), 21 / 2, 23 / 2].getD j 0

/-- Lows of the three-bar pattern counterexample. -/
def c8l : ℕ → ℚ := fun j => [(17 / 2 : ℚ), 17 / 2, 15 / 2].getD j 0

/-- Closes of the three-bar pattern counterexample. -/
def c8c : ℕ → ℚ := fun j => [(9 : ℚ), 9, 11].getD j 0

/-! ## Helper lemmas -/

theorem JsNum.add_add_num (x : JsNum) (p q : ℚ) :
    JsNum.add (JsNum.add x (.num p)) (.num q) = JsNum.add x (.num (p + q)) := by
  cases x <;> simp [JsNum.add, add_assoc]

theorem sliceSum_eq_sum (f : ℕ → ℚ) (a n : ℕ) :
    sliceSum f a n = ∑ j ∈ Finset.Ico a (a + n), f j := by
  induction n with
  | zero => simp [sliceSum]
  | succ n ih =>
      rw [show a + (n + 1) = (a + n) + 1 from rfl,
        Finset.sum_Ico_succ_top (Nat.le_add_right a n)]
      rw [sliceSum, ih]

/-- Below `period` the Wilder-smoothed series is NaN. -/
theorem wilderSmooth_nan (raw : ℕ → ℚ) (period i : ℕ) (hi : i < period) :
    wilderSmooth raw period i = .nan := by
  cases i with
  | zero => simp only [wilderSmooth]; rw [if_pos hi]
  | succ n => simp only [wilderSmooth]; rw [if_pos hi]

/-- The first Wilder-smoothed value sums the raw entries at indices
`1 .. period`. -/
theorem wilderSmooth_first (raw : ℕ → ℚ) (period : ℕ) (hp : 1 ≤ period) :
    wilderSmooth raw period period = .num (∑ j ∈ Finset.Icc 1 period, raw j) := by
  obtain ⟨p, rfl⟩ : ∃ p, period = p + 1 := ⟨period - 1, (Nat.succ_pred_eq_of_pos hp).symm⟩
  simp only [wilderSmooth]
  rw [if_neg (lt_irrefl _), if_pos (by trivial)]
  rw [show p + 1 + 1 - (p + 1) = 1 from by omega, sliceSum_eq_sum]
  rw [show 1 + (p + 1) = (p + 1) + 1 from by omega, Nat.Ico_succ_right]

/-- One step of the Wilder recurrence on defined values. -/
theorem wilderSmooth_step (raw : ℕ → ℚ) (period : ℕ) (hp : 1 ≤ period) (i : ℕ)
    (hi : period ≤ i) (q : ℚ) (hq : wilderSmooth raw period i = .num q) :
    wilderSmooth raw period (i + 1) = .num (q - q / period + raw (i + 1)) := by
  have h1 : ¬ (i + 1 < period) := by omega
  have h2 : ¬ (i + 1 = period) := by omega
  have h0 : ((period : ℚ)) ≠ 0 := Nat.cast_ne_zero.mpr (by omega)
  simp only [wilderSmooth]
  rw [if_neg h1, if_neg h2, hq]
  simp only [JsNum.div, if_neg h0, JsNum.sub, JsNum.neg, JsNum.add]
  rw [JsNum.num.injEq]
  ring

/-- From `period` on, the Wilder-smoothed series is a finite number. -/
theorem wilderSmooth_isNum (raw : ℕ → ℚ) (period : ℕ) (hp : 1 ≤ period) (i : ℕ)
    (hi : period ≤ i) : ∃ q, wilderSmooth raw period i = .num q := by
  induction i, hi using Nat.le_induction with
  | base => exact ⟨_, wilderSmooth_first raw period hp⟩
  | succ i hi ih =>
      obtain ⟨q, hq⟩ := ih
      exact ⟨_, wilderSmooth_step raw period hp i hi q hq⟩

/-! ## Claim theorems -/

/-- C3: `getSignal` never throws — a rejected fetch is converted by the
surrounding `try`/`catch` into the analysis-failed text, and a successful
fetch never produces that failure text: every path yields a textual
result. -/
theorem c3_getSignal_catches_fetch_failures :
    (∀ msg symbol interval jHi jLo f,
      getSignal (Except.error msg) symbol interval jHi jLo f =
        .failureText ("Error al analizar " ++ symbol ++ ": " ++ msg)) ∧
    (∀ data symbol interval jHi jLo f,
      (getSignal (Except.ok data) symbol interval jHi jLo f).isFailureText = false) := by
  constructor
  · intro msg symbol interval jHi jLo f
    rfl
  · intro data symbol interval jHi jLo f
    simp only [getSignal]
    split <;> rfl

/-- C7: code bug — the daily fetch window is 90 days, hence at most 91
daily data points, strictly fewer than the 200 the daily-mode 200-period
SMA needs; at every index reachable in such a window the SMA-200 is NaN. -/
theorem c7_daily_window_shorter_than_sma200 :
    fetchWindowSeconds "1d" / 86400 + 1 = 91 ∧ (91 : ℤ) < 200 ∧
    ∀ d : ℕ → ℚ, calculateSMA d 200 90 = .nan := by
  refine ⟨by norm_num [fetchWindowSeconds], by norm_num, fun d => ?_⟩
  simp only [calculateSMA]
  rw [if_pos (by omega)]

/-- C8 counterexample: at index 2 — which has only 2 preceding bars,
fewer than the 3 the claim requires — `identifyPatterns` flags a bullish
engulfing. -/
theorem c8_counterexample :
    identifyPatternsBullish c8o c8h c8l c8c 2 = true ∧ 2 < 3 := by
  with_unfolding_all decide

/-- C8 amended: `identifyPatterns` flags are false at every index with
fewer than 2 preceding bars (indices 0 and 1); from index 2 on — 2 prior
bars, 3 bars of data in total — patterns may fire. -/
theorem c8_patterns_warmup (o h l c : ℕ → ℚ) (i : ℕ) (hi : i < 2) :
    identifyPatternsBullish o h l c i = false ∧
    identifyPatternsBearish o h l c i = false := by
  constructor
  · simp only [identifyPatternsBullish]; rw [if_pos hi]
  · simp only [identifyPatternsBearish]; rw [if_pos hi]

/-- C8 witness: the amended warm-up bound evaluated at index 1. -/
theorem c8_patterns_warmup_witness :
    1 < 2 ∧ identifyPatternsBullish c8o c8h c8l c8c 1 = false ∧
      identifyPatternsBearish c8o c8h c8l c8c 1 = false :=
  ⟨by decide, (c8_patterns_warmup c8o c8h c8l c8c 1 (by decide)).1,
    (c8_patterns_warmup c8o c8h c8l c8c 1 (by decide)).2⟩

/-- C5 counterexample: for the raw series `c5raw` with period 2, the first
smoothed value is 2 (sum of raw indices 1..2), not the sum 6 of the first
two raw values (indices 0..1) the claim specifies. -/
theorem c5_counterexample :
    (wilderSmooth c5raw 2 2 = .num (∑ j ∈ Finset.range 2, c5raw j)) = False :=
  eq_false (by with_unfolding_all decide)

/-- C5 amended: in Wilder's smoothing the first smoothed value (at index
`period`) is the simple sum of the raw values at indices `1 .. period`,
and every subsequent value is `prev - prev/period + current`. -/
theorem c5_wilder_smoothing (raw : ℕ → ℚ) (period : ℕ) (hp : 1 ≤ period) :
    wilderSmooth raw period period = .num (∑ j ∈ Finset.Icc 1 period, raw j) ∧
    ∀ i, period ≤ i → ∃ q, wilderSmooth raw period i = .num q ∧
      wilderSmooth raw period (i + 1) = .num (q - q / period + raw (i + 1)) := by
  refine ⟨wilderSmooth_first raw period hp, fun i hi => ?_⟩
  obtain ⟨q, hq⟩ := wilderSmooth_isNum raw period hp i hi
  exact ⟨q, hq, wilderSmooth_step raw period hp i hi q hq⟩

/-- C5 witness: the amended smoothing law evaluated at period 2 on
`c5raw`. -/
theorem c5_wilder_smoothing_witness :
    1 ≤ 2 ∧ wilderSmooth c5raw 2 2 = .num (∑ j ∈ Finset.Icc 1 2, c5raw j) :=
  ⟨by decide, (c5_wilder_smoothing c5raw 2 (by decide)).1⟩

/-- C6 counterexample: with period 2, `+DI` is already defined (not NaN)
at index 2, which is strictly below `2·period - 1 = 3`. -/
theorem c6_counterexample :
    (adxPDI c6h c6l c6c 2 2).isNaN = false ∧ 2 < 2 * 2 - 1 := by
  with_unfolding_all decide

/-- C6 amended: only the `adx` series is NaN at every index below
`2·period - 1`; the directional indicators `pdi` and `ndi` are NaN at
every index below `period`.  (No definedness is asserted from `period`
on: a constant OHLC series makes every TR and directional movement zero,
so `pdi = 100·(0/0)` is NaN there as well.) -/
theorem c6_adx_warmup (h l c : ℕ → ℚ) (period i : ℕ) :
    ((i : ℤ) < 2 * period - 1 → adxSeq h l c period i = .nan) ∧
    (i < period → adxPDI h l c period i = .nan ∧ adxNDI h l c period i = .nan) := by
  constructor
  · intro hi
    cases i with
    | zero => simp only [adxSeq]; rw [if_pos (by exact_mod_cast hi)]
    | succ n =>
        simp only [adxSeq]
        rw [if_pos (by exact_mod_cast hi)]
  · intro hi
    constructor
    · simp [adxPDI, wilderSmooth_nan _ _ _ hi, JsNum.isNaN]
    · simp [adxNDI, wilderSmooth_nan _ _ _ hi, JsNum.isNaN]

/-- A conditional positive part is a `max` with zero. -/
theorem ite_pos_eq_max (c : ℚ) : (if 0 < c then c else 0) = max c 0 := by
  rcases lt_or_le 0 c with h | h
  · rw [if_pos h, max_eq_left h.le]
  · rw [if_neg (not_lt.mpr h), max_eq_right h]

/-- A conditional negative part is a `max` of the negation with zero. -/
theorem ite_neg_eq_max (c : ℚ) : (if 0 < c then 0 else -c) = max (-c) 0 := by
  rcases lt_or_le 0 c with h | h
  · rw [if_pos h, max_eq_right (by linarith)]
  · rw [if_neg (not_lt.mpr h), max_eq_left (by linarith)]

/-- The RSI gains loop accumulator is the sum of positive parts of the
changes. -/
theorem rsiGains_eq_sum (d : ℕ → ℚ) (a n : ℕ) :
    rsiGains d a n = ∑ j ∈ Finset.Ico a (a + n), max (d j - d (j - 1)) 0 := by
  induction n with
  | zero => simp [rsiGains]
  | succ n ih =>
      rw [show a + (n + 1) = (a + n) + 1 from rfl,
        Finset.sum_Ico_succ_top (Nat.le_add_right a n)]
      rw [rsiGains, ih, ite_pos_eq_max]

/-- The RSI losses loop accumulator is the sum of absolute negative parts
of the changes. -/
theorem rsiLosses_eq_sum (d : ℕ → ℚ) (a n : ℕ) :
    rsiLosses d a n = ∑ j ∈ Finset.Ico a (a + n), max (d (j - 1) - d j) 0 := by
  induction n with
  | zero => simp [rsiLosses]
  | succ n ih =>
      rw [show a + (n + 1) = (a + n) + 1 from rfl,
        Finset.sum_Ico_succ_top (Nat.le_add_right a n)]
      rw [rsiLosses, ih, ite_neg_eq_max]
      rw [neg_sub]

/-- On a strictly increasing series the losses accumulator vanishes for
windows starting at a positive index. -/
theorem rsiLosses_increasing (d : ℕ → ℚ) (hinc : ∀ j, d j < d (j + 1)) (a : ℕ)
    (ha : 1 ≤ a) (n : ℕ) : rsiLosses d a n = 0 := by
  induction n with
  | zero => rfl
  | succ n ih =>
      rw [rsiLosses, ih]
      have h : d (a + n - 1) < d (a + n) := by
        have := hinc (a + n - 1)
        rwa [show a + n - 1 + 1 = a + n from by omega] at this
      rw [if_pos (by linarith)]
      ring

/-- C4: `calculateRSI` is NaN below `period`; at defined indices it is
`100 - 100/(1 + RS)` with the spec's RS convention over the trailing
window sums; on a strictly increasing series with period 14 every defined
value is exactly `100 - 100/101`. -/
theorem c4_calculateRSI_formulas :
    (∀ (d : ℕ → ℚ) (period i : ℕ), i < period → calculateRSI d period i = .nan) ∧
    (∀ (d : ℕ → ℚ) (period i : ℕ), period ≤ i →
      calculateRSI d period i =
        .num (100 - 100 / (1 + specRS (specGains d period i) (specLosses d period i)))) ∧
    (∀ d : ℕ → ℚ, (∀ j, d j < d (j + 1)) → ∀ i, 14 ≤ i →
      calculateRSI d 14 i = .num (100 - 100 / 101)) := by
  have hg : ∀ (d : ℕ → ℚ) (period i : ℕ), period ≤ i →
      rsiGains d (i + 1 - period) period = specGains d period i := by
    intro d period i hi
    rw [rsiGains_eq_sum, specGains,
      show (i + 1 - period) + period = i + 1 from by omega, Nat.Ico_succ_right]
  have hl : ∀ (d : ℕ → ℚ) (period i : ℕ), period ≤ i →
      rsiLosses d (i + 1 - period) period = specLosses d period i := by
    intro d period i hi
    rw [rsiLosses_eq_sum, specLosses,
      show (i + 1 - period) + period = i + 1 from by omega, Nat.Ico_succ_right]
  refine ⟨fun d period i hi => ?_, fun d period i hi => ?_, fun d hinc i hi => ?_⟩
  · simp only [calculateRSI]
    rw [if_pos hi]
  · simp only [calculateRSI]
    rw [if_neg (not_lt.mpr hi), hg d period i hi, hl d period i hi, specRS]
  · simp only [calculateRSI]
    rw [if_neg (not_lt.mpr hi),
      rsiLosses_increasing d hinc (i + 1 - 14) (by omega) 14]
    norm_num

/-- C4 witness: the three formulas evaluated on concrete inputs (the
identically-zero series below warm-up, and the identity series). -/
theorem c4_calculateRSI_formulas_witness :
    (3 < 14 ∧ calculateRSI (fun _ => 0) 14 3 = .nan) ∧
    (14 ≤ 20 ∧ calculateRSI (fun n => (n : ℚ)) 14 20 =
      .num (100 - 100 / (1 + specRS (specGains (fun n => (n : ℚ)) 14 20)
        (specLosses (fun n => (n : ℚ)) 14 20)))) ∧
    (14 ≤ 14 ∧ calculateRSI (fun n => (n : ℚ)) 14 14 = .num (100 - 100 / 101)) :=
  ⟨⟨by decide, c4_calculateRSI_formulas.1 _ 14 3 (by decide)⟩,
   ⟨by decide, c4_calculateRSI_formulas.2.1 _ 14 20 (by decide)⟩,
   ⟨by decide, c4_calculateRSI_formulas.2.2 _
      (fun j => by exact_mod_cast Nat.lt_succ_self j) 14 (by decide)⟩⟩

/-- C6 witness: the amended warm-up bounds evaluated at period 14,
index 5. -/
theorem c6_adx_warmup_witness :
    ((5 : ℤ) < 2 * 14 - 1 ∧ adxSeq c6h c6l c6c 14 5 = .nan) ∧
    (5 < 14 ∧ adxPDI c6h c6l c6c 14 5 = .nan ∧ adxNDI c6h c6l c6c 14 5 = .nan) :=
  ⟨⟨by decide, (c6_adx_warmup c6h c6l c6c 14 5).1 (by decide)⟩,
   ⟨by decide, (c6_adx_warmup c6h c6l c6c 14 5).2 (by decide)⟩⟩

/-- Appending a non-NaN check after a `<`-comparison against a finite
number changes nothing: the comparison is already false on NaN. -/
theorem JsNum.lt_num_and_not_isNaN (x : JsNum) (q : ℚ) :
    (JsNum.lt x (.num q) && !x.isNaN) = JsNum.lt x (.num q) := by
  cases x <;> simp [JsNum.lt, JsNum.isNaN]

/-- Symmetric variant of `JsNum.lt_num_and_not_isNaN`. -/
theorem JsNum.num_lt_and_not_isNaN (x : JsNum) (q : ℚ) :
    (JsNum.lt (.num q) x && !x.isNaN) = JsNum.lt (.num q) x := by
  cases x <;> simp [JsNum.lt, JsNum.isNaN]

/-- C2 counterexample: on the same fetched series `dataC2`, the same
interval and the same static configuration, two runs differing only in
the `Math.random()` jitter drawn for the synthetic low series produce
different SignalResults (bullish strength 0 vs 100, confidence BAJA vs
ALTA), so the post-fetch computation is not a pure function of series
plus static configuration alone. -/
theorem c2_counterexample :
    (analyzeData dataC2 "1wk" jzero jzero sqrt0 =
      analyzeData dataC2 "1wk" jzero jHalf9 sqrt0) = False :=
  eq_false (by with_unfolding_all decide)

/-- C2 amended: the signal computation is a pure, deterministic function
of the fetched price series, the static configuration, and the random
jitter drawn for the synthetic high/low series — it depends on the jitter
streams only through the draws made for indices below the series
length. -/
theorem c2_determinism_given_jitter (data : List ℚ) (interval : String)
    (jHi jLo jHi' jLo' : ℕ → ℚ) (f : ℚ → ℚ)
    (hHi : ∀ k, k < data.length → jHi k = jHi' k)
    (hLo : ∀ k, k < data.length → jLo k = jLo' k) :
    analyzeData data interval jHi jLo f = analyzeData data interval jHi' jLo' f := by
  unfold analyzeData
  have h1 :
      ((List.range data.length).map fun j => data.getD j 0 * (1 + (1 / 100) * jHi j)) =
      ((List.range data.length).map fun j => data.getD j 0 * (1 + (1 / 100) * jHi' j)) :=
    List.map_congr_left fun a ha => by rw [hHi a (List.mem_range.mp ha)]
  have h2 :
      ((List.range data.length).map fun j => data.getD j 0 * (1 - (1 / 100) * jLo j)) =
      ((List.range data.length).map fun j => data.getD j 0 * (1 - (1 / 100) * jLo' j)) :=
    List.map_congr_left fun a ha => by rw [hLo a (List.mem_range.mp ha)]
  rw [h1, h2]

/-- C2 witness: determinism instantiated with jitter streams that agree on
the ten draws the series needs but differ beyond them. -/
theorem c2_determinism_given_jitter_witness :
    (∀ k, k < dataC2.length → jzero k = jtail7 k) ∧
    analyzeData dataC2 "1wk" jzero jzero sqrt0 =
      analyzeData dataC2 "1wk" jzero jtail7 sqrt0 :=
  ⟨fun k hk => by
     have h10 : k < 10 := by simpa [dataC2] using hk
     simp [jzero, jtail7, h10],
   c2_determinism_given_jitter dataC2 "1wk" jzero jzero jzero jtail7 sqrt0
     (fun k _ => rfl)
     (fun k hk => by
       have h10 : k < 10 := by simpa [dataC2] using hk
       simp [jzero, jtail7, h10])⟩

/-- C1: for every series long enough to be accepted, `getSignal` analyses
it and the classification follows the spec's rules exactly: the ≥3
valid-indicator guard, the 10-point lead margin, confirmation by trend
direction or RSI position, the 70-point STRONG threshold, mixed signals
without confirmation, and no-clear-signal without a sufficient lead. -/
theorem c1_classification_rules (data : List ℚ) (interval symbol : String)
    (jHi jLo : ℕ → ℚ) (f : ℚ → ℚ)
    (hlen : requiredDataPoints interval ≤ data.length) :
    getSignal (Except.ok data) symbol interval jHi jLo f =
      .analysis (analyzeData data interval jHi jLo f) ∧
    (analyzeData data interval jHi jLo f).classification =
      specClassification
        (analyzeData data interval jHi jLo f).validCount
        (analyzeData data interval jHi jLo f).bullishSignals
        (analyzeData data interval jHi jLo f).bearishSignals
        (calculateSMA (fun j => data.getD j 0) (if interval = "1d" then 50 else 10)
          (data.length - 1))
        (calculateSMA (fun j => data.getD j 0) (if interval = "1d" then 200 else 30)
          (data.length - 1))
        (calculateRSI (fun j => data.getD j 0) 14 (data.length - 1)) := by
  constructor
  · simp only [getSignal]
    rw [if_neg (not_lt.mpr hlen)]
  · simp only [analyzeData, analyzeCore, specClassification,
      JsNum.lt_num_and_not_isNaN, JsNum.num_lt_and_not_isNaN]

/-- C1 witness: the classification equivalence instantiated on a concrete
accepted ten-point weekly series. -/
theorem c1_classification_rules_witness :
    requiredDataPoints "1wk" ≤ dataPos.length ∧
    (getSignal (Except.ok dataPos) "AAPL" "1wk" jzero jzero sqrt0 =
      .analysis (analyzeData dataPos "1wk" jzero jzero sqrt0) ∧
    (analyzeData dataPos "1wk" jzero jzero sqrt0).classification =
      specClassification
        (analyzeData dataPos "1wk" jzero jzero sqrt0).validCount
        (analyzeData dataPos "1wk" jzero jzero sqrt0).bullishSignals
        (analyzeData dataPos "1wk" jzero jzero sqrt0).bearishSignals
        (calculateSMA (fun j => dataPos.getD j 0) (if ("1wk" : String) = "1d" then 50 else 10)
          (dataPos.length - 1))
        (calculateSMA (fun j => dataPos.getD j 0) (if ("1wk" : String) = "1d" then 200 else 30)
          (dataPos.length - 1))
        (calculateRSI (fun j => dataPos.getD j 0) 14 (dataPos.length - 1))) :=
  ⟨by decide, c1_classification_rules dataPos "1wk" "AAPL" jzero jzero sqrt0 (by decide)⟩

/-- C10: the minimum-indicator guard counts exactly the four categories —
SMA trend pair, RSI, Bollinger pair, ADX — through `validIndicatorsCount`,
whose inputs contain no candlestick-pattern information; and whenever the
count is below 3 the classification is the insufficient-data one, so a
detected pattern (which still feeds the scores) can never enable a
directional call by itself. -/
theorem c10_pattern_never_counts (data : List ℚ) (interval : String)
    (jHi jLo : ℕ → ℚ) (f : ℚ → ℚ) :
    (analyzeData data interval jHi jLo f).validCount =
      validIndicatorsCount
        (calculateSMA (fun j => data.getD j 0) (if interval = "1d" then 50 else 10)
          (data.length - 1))
        (calculateSMA (fun j => data.getD j 0) (if interval = "1d" then 200 else 30)
          (data.length - 1))
        (calculateRSI (fun j => data.getD j 0) 14 (data.length - 1))
        (calculateBollingerUpper (fun j => data.getD j 0) 20 2 f (data.length - 1))
        (calculateBollingerLower (fun j => data.getD j 0) 20 2 f (data.length - 1))
        (adxSeq
          (fun j => ((List.range data.length).map fun k =>
            data.getD k 0 * (1 + (1 / 100) * jHi k)).getD j 0)
          (fun j => ((List.range data.length).map fun k =>
            data.getD k 0 * (1 - (1 / 100) * jLo k)).getD j 0)
          (fun j => data.getD j 0) 14 (data.length - 1)) ∧
    ((analyzeData data interval jHi jLo f).validCount < 3 →
      (analyzeData data interval jHi jLo f).classification =
        SignalClass.insufficientIndicators) := by
  constructor
  · simp only [analyzeData, analyzeCore]
  · intro hvc
    simp only [analyzeData, analyzeCore] at hvc ⊢
    rw [if_pos hvc]

/-- C10 witness: on `dataC2` with the hammer-producing jitter, the pattern
fires and pushes the bullish score to 100, yet the valid-indicator count
stays 0 and the classification remains the insufficient-data one. -/
theorem c10_pattern_never_counts_witness :
    (analyzeData dataC2 "1wk" jzero jHalf9 sqrt0).validCount < 3 ∧
    (analyzeData dataC2 "1wk" jzero jHalf9 sqrt0).classification =
      SignalClass.insufficientIndicators ∧
    (analyzeData dataC2 "1wk" jzero jHalf9 sqrt0).bullishSignals = .num 100 :=
  ⟨by with_unfolding_all decide,
   (c10_pattern_never_counts dataC2 "1wk" jzero jHalf9 sqrt0).2
     (by with_unfolding_all decide),
   by with_unfolding_all decide⟩

/-- C9 counterexample: on the thirty-point series `dataC9` (twenty
negative closes followed by ten positive ones) the normalized bullish
score is a finite negative number, outside [0,100]: the trend ratio term
pushes the bullish accumulator far below zero. -/
theorem c9_counterexample :
    JsNum.lt (analyzeData dataC9 "1wk" jzero jzero sqrt0).bullishSignals (.num 0) = true := by
  with_unfolding_all decide

theorem scorePatterns_bound (patB patR : Bool) (s : Scores) :
    ∃ db dr dt : ℚ,
      (scorePatterns patB patR s).bullishSignals = JsNum.add s.bullishSignals (.num db) ∧
      (scorePatterns patB patR s).bearishSignals = JsNum.add s.bearishSignals (.num dr) ∧
      (scorePatterns patB patR s).totalSignals = JsNum.add s.totalSignals (.num dt) ∧
      0 ≤ dt ∧ db ≤ dt ∧ dr ≤ dt ∧ 0 ≤ db ∧ 0 ≤ dr := by
  cases patB <;> cases patR
  · exact ⟨0, 0, 0, by simp [scorePatterns, JsNum.add_zero_right],
      by simp [scorePatterns, JsNum.add_zero_right],
      by simp [scorePatterns, JsNum.add_zero_right],
      le_refl _, le_refl _, le_refl _, le_refl _, le_refl _⟩
  · exact ⟨0, 20, 20, by simp [scorePatterns, weights, JsNum.add_zero_right],
      by simp [scorePatterns, weights],
      by simp [scorePatterns, weights],
      by norm_num, by norm_num, by norm_num, by norm_num, by norm_num⟩
  · exact ⟨20, 0, 20, by simp [scorePatterns, weights],
      by simp [scorePatterns, weights, JsNum.add_zero_right],
      by simp [scorePatterns, weights],
      by norm_num, by norm_num, by norm_num, by norm_num, by norm_num⟩
  · exact ⟨20, 20, 20, by simp [scorePatterns, weights],
      by simp [scorePatterns, weights],
      by simp [scorePatterns, weights],
      by norm_num, by norm_num, by norm_num, by norm_num, by norm_num⟩

theorem adx_strength_bound (A : JsNum) (h : JsNum.lt (.num 25) A = true) :
    ∃ c : ℚ, JsNum.min2 (.num 1) (JsNum.div (JsNum.sub A (.num 25)) (.num 25)) = .num c ∧
      0 ≤ c ∧ c ≤ 1 := by
  cases A with
  | nan => simp [JsNum.lt] at h
  | ninf => simp [JsNum.lt] at h
  | inf =>
      refine ⟨1, ?_, by norm_num, by norm_num⟩
      simp [JsNum.sub, JsNum.neg, JsNum.add, JsNum.div, JsNum.min2, JsNum.isNaN, JsNum.lt]
  | num a =>
      have ha : 25 < a := by simpa [JsNum.lt] using h
      by_cases hw : 1 < (a - 25) / 25
      · refine ⟨1, ?_, by norm_num, by norm_num⟩
        simp only [JsNum.sub, JsNum.neg, JsNum.add, JsNum.div, JsNum.min2, JsNum.isNaN,
          JsNum.lt]
        rw [if_neg (by norm_num), if_pos (by simpa [sub_eq_add_neg] using hw)]
      · refine ⟨(a - 25) / 25, ?_, div_nonneg (by linarith) (by norm_num),
          by linarith [not_lt.mp hw]⟩
        simp only [JsNum.sub, JsNum.neg, JsNum.add, JsNum.div, JsNum.min2, JsNum.isNaN,
          JsNum.lt]
        rw [if_neg (by norm_num), if_neg (by simpa [sub_eq_add_neg] using hw)]
        simp [sub_eq_add_neg]

theorem scoreADX_bound (adxV pdiV ndiV : ℕ → JsNum) (i : ℕ) (s : Scores) :
    ∃ db dr dt : ℚ,
      (scoreADX adxV pdiV ndiV i s).bullishSignals = JsNum.add s.bullishSignals (.num db) ∧
      (scoreADX adxV pdiV ndiV i s).bearishSignals = JsNum.add s.bearishSignals (.num dr) ∧
      (scoreADX adxV pdiV ndiV i s).totalSignals = JsNum.add s.totalSignals (.num dt) ∧
      0 ≤ dt ∧ db ≤ dt ∧ dr ≤ dt ∧ 0 ≤ db ∧ 0 ≤ dr := by
  by_cases hguard : (!(adxV i).isNaN && !(pdiV i).isNaN && !(ndiV i).isNaN) = true
  · by_cases hlt : JsNum.lt (.num 25) (adxV i) = true
    · obtain ⟨c, hc, hc0, hc1⟩ := adx_strength_bound (adxV i) hlt
      by_cases h1 : JsNum.lt (ndiV i) (pdiV i) = true
      · exact ⟨10 * c, 0, 10, by simp [scoreADX, hguard, hlt, h1, hc, weights, JsNum.mul],
          by simp [scoreADX, hguard, hlt, h1, hc, weights, JsNum.mul, JsNum.add_zero_right],
          by simp [scoreADX, hguard, hlt, h1, hc, weights, JsNum.mul],
          by norm_num, by nlinarith, by norm_num, by positivity, le_refl _⟩
      · by_cases h2 : JsNum.lt (pdiV i) (ndiV i) = true
        · exact ⟨0, 10 * c, 10,
            by simp [scoreADX, hguard, hlt, h1, h2, hc, weights, JsNum.mul,
              JsNum.add_zero_right],
            by simp [scoreADX, hguard, hlt, h1, h2, hc, weights, JsNum.mul],
            by simp [scoreADX, hguard, hlt, h1, h2, hc, weights, JsNum.mul],
            by norm_num, by norm_num, by nlinarith, le_refl _, by positivity⟩
        · exact ⟨0, 0, 10,
            by simp [scoreADX, hguard, hlt, h1, h2, weights, JsNum.add_zero_right],
            by simp [scoreADX, hguard, hlt, h1, h2, weights, JsNum.add_zero_right],
            by simp [scoreADX, hguard, hlt, h1, h2, weights],
            by norm_num, by norm_num, by norm_num, le_refl _, le_refl _⟩
    · exact ⟨0, 0, 10,
        by simp [scoreADX, hguard, hlt, weights, JsNum.add_zero_right],
        by simp [scoreADX, hguard, hlt, weights, JsNum.add_zero_right],
        by simp [scoreADX, hguard, hlt, weights],
        by norm_num, by norm_num, by norm_num, le_refl _, le_refl _⟩
  · exact ⟨0, 0, 0,
      by simp [scoreADX, hguard, JsNum.add_zero_right],
      by simp [scoreADX, hguard, JsNum.add_zero_right],
      by simp [scoreADX, hguard, JsNum.add_zero_right],
      le_refl _, le_refl _, le_refl _, le_refl _, le_refl _⟩

theorem JsNum.sub_num_num (p q : ℚ) : JsNum.sub (.num p) (.num q) = .num (p - q) := by
  simp [JsNum.sub, JsNum.neg, JsNum.add, sub_eq_add_neg]

theorem JsNum.mul_num_num (p q : ℚ) : JsNum.mul (.num p) (.num q) = .num (p * q) := rfl

theorem JsNum.div_num_num (p q : ℚ) (h : q ≠ 0) :
    JsNum.div (.num p) (.num q) = .num (p / q) := by
  simp [JsNum.div, h]

theorem JsNum.min2_num_num (p q : ℚ) :
    JsNum.min2 (.num p) (.num q) = .num (min p q) := by
  rcases le_or_lt q p with h | h
  · simp [JsNum.min2, JsNum.isNaN, JsNum.lt_num_num, decide_eq_true_eq,
      not_lt.mpr h, min_eq_right h]
  · simp [JsNum.min2, JsNum.isNaN, JsNum.lt_num_num, decide_eq_true_eq, h,
      min_eq_left h.le]

theorem JsNum.max2_num_num (p q : ℚ) :
    JsNum.max2 (.num p) (.num q) = .num (max p q) := by
  rcases le_or_lt q p with h | h
  · simp [JsNum.max2, JsNum.isNaN, JsNum.lt_num_num, decide_eq_true_eq,
      not_lt.mpr h, max_eq_left h]
  · simp [JsNum.max2, JsNum.isNaN, JsNum.lt_num_num, decide_eq_true_eq, h,
      max_eq_right h.le]

theorem scoreMomentum_bound (rsi : ℕ → JsNum) (i : ℕ) (s : Scores)
    (hR : rsi i = .nan ∨ ∃ v, rsi i = .num v) :
    ∃ db dr dt : ℚ,
      (scoreMomentum rsi i s).bullishSignals = JsNum.add s.bullishSignals (.num db) ∧
      (scoreMomentum rsi i s).bearishSignals = JsNum.add s.bearishSignals (.num dr) ∧
      (scoreMomentum rsi i s).totalSignals = JsNum.add s.totalSignals (.num dt) ∧
      0 ≤ dt ∧ db ≤ dt ∧ dr ≤ dt ∧ 0 ≤ db ∧ 0 ≤ dr := by
  have d30 : ∀ p : ℚ, JsNum.div (.num p) (.num 30) = .num (p / 30) :=
    fun p => JsNum.div_num_num p 30 (by norm_num)
  have d100 : ∀ p : ℚ, JsNum.div (.num p) (.num 100) = .num (p / 100) :=
    fun p => JsNum.div_num_num p 100 (by norm_num)
  rcases hR with hRn | ⟨v, hRv⟩
  · exact ⟨0, 0, 0,
      by simp [scoreMomentum, hRn, JsNum.isNaN, JsNum.add_zero_right],
      by simp [scoreMomentum, hRn, JsNum.isNaN, JsNum.add_zero_right],
      by simp [scoreMomentum, hRn, JsNum.isNaN, JsNum.add_zero_right],
      le_refl _, le_refl _, le_refl _, le_refl _, le_refl _⟩
  simp only [scoreMomentum, hRv, JsNum.isNaN, Bool.not_false, if_true, weights,
    JsNum.lt_num_num, JsNum.le_num_num, JsNum.sub_num_num, JsNum.mul_num_num,
    JsNum.min2_num_num, d30, d100, Bool.and_eq_true, decide_eq_true_eq]
  split_ifs with h1 h2 h3 h4
  · refine ⟨0, 20 * (7 / 10 + 3 / 10 * min 100 ((v - 70) / 30 * 100) / 100), 20,
      by simp [JsNum.add_zero_right], rfl, rfl, by norm_num, ?_, ?_, le_refl _, ?_⟩
    · norm_num
    · have hL1 : min 100 ((v - 70) / 30 * 100) ≤ 100 := min_le_left _ _
      nlinarith
    · have hL0 : 0 ≤ min 100 ((v - 70) / 30 * 100) :=
        le_min (by norm_num) (by nlinarith)
      nlinarith
  · refine ⟨20 * (7 / 10 + 3 / 10 * min 100 ((30 - v) / 30 * 100) / 100), 0, 20,
      rfl, by simp [JsNum.add_zero_right], rfl, by norm_num, ?_, by norm_num, ?_, le_refl _⟩
    · have hL1 : min 100 ((30 - v) / 30 * 100) ≤ 100 := min_le_left _ _
      nlinarith
    · have hL0 : 0 ≤ min 100 ((30 - v) / 30 * 100) :=
        le_min (by norm_num) (by nlinarith)
      nlinarith
  · exact ⟨20 * (7 / 10), 0, 20, rfl, by simp [JsNum.add_zero_right], rfl,
      by norm_num, by norm_num, by norm_num, by norm_num, le_refl _⟩
  · exact ⟨0, 20 * (7 / 10), 20, by simp [JsNum.add_zero_right], rfl, rfl,
      by norm_num, by norm_num, by norm_num, le_refl _, by norm_num⟩
  · exact ⟨0, 0, 20, by simp [JsNum.add_zero_right], by simp [JsNum.add_zero_right], rfl,
      by norm_num, by norm_num, by norm_num, le_refl _, le_refl _⟩

theorem scoreVolatilityEdge_bound (d : ℕ → ℚ) (bbU bbM bbL rsi : ℕ → JsNum) (i : ℕ)
    (s : Scores) :
    ∃ db dr : ℚ,
      (scoreVolatilityEdge d bbU bbM bbL rsi i s).bullishSignals =
        JsNum.add s.bullishSignals (.num db) ∧
      (scoreVolatilityEdge d bbU bbM bbL rsi i s).bearishSignals =
        JsNum.add s.bearishSignals (.num dr) ∧
      (scoreVolatilityEdge d bbU bbM bbL rsi i s).totalSignals = s.totalSignals ∧
      0 ≤ db ∧ db ≤ 12 ∧ 0 ≤ dr ∧ dr ≤ 12 := by
  simp only [scoreVolatilityEdge, weights, JsNum.mul_num_num]
  split_ifs
  · exact ⟨0, 15 * (8 / 10), (JsNum.add_zero_right _).symm, rfl, rfl,
      le_refl _, by norm_num, by norm_num, by norm_num⟩
  · exact ⟨15 * (4 / 10), 0, rfl, (JsNum.add_zero_right _).symm, rfl,
      by norm_num, by norm_num, le_refl _, by norm_num⟩
  · exact ⟨15 * (8 / 10), 0, rfl, (JsNum.add_zero_right _).symm, rfl,
      by norm_num, by norm_num, le_refl _, by norm_num⟩
  · exact ⟨0, 15 * (4 / 10), (JsNum.add_zero_right _).symm, rfl, rfl,
      le_refl _, by norm_num, by norm_num, by norm_num⟩
  · exact ⟨0, 0, (JsNum.add_zero_right _).symm, (JsNum.add_zero_right _).symm, rfl,
      le_refl _, by norm_num, le_refl _, by norm_num⟩

theorem scoreVolatilityNarrow_bound (bbU bbM bbL smaS : ℕ → JsNum) (i : ℕ)
    (s1 : Scores) :
    ∃ db dr : ℚ,
      (scoreVolatilityNarrow bbU bbM bbL smaS i s1).bullishSignals =
        JsNum.add s1.bullishSignals (.num db) ∧
      (scoreVolatilityNarrow bbU bbM bbL smaS i s1).bearishSignals =
        JsNum.add s1.bearishSignals (.num dr) ∧
      (scoreVolatilityNarrow bbU bbM bbL smaS i s1).totalSignals = s1.totalSignals ∧
      0 ≤ db ∧ db ≤ 3 ∧ 0 ≤ dr ∧ dr ≤ 3 := by
  simp only [scoreVolatilityNarrow, weights, JsNum.mul_num_num]
  split_ifs
  · exact ⟨15 * (2 / 10), 0, rfl, (JsNum.add_zero_right _).symm, rfl,
      by norm_num, by norm_num, le_refl _, by norm_num⟩
  · exact ⟨0, 15 * (2 / 10), (JsNum.add_zero_right _).symm, rfl, rfl,
      le_refl _, by norm_num, by norm_num, by norm_num⟩
  · exact ⟨0, 0, (JsNum.add_zero_right _).symm, (JsNum.add_zero_right _).symm, rfl,
      le_refl _, by norm_num, le_refl _, by norm_num⟩
  · exact ⟨0, 0, (JsNum.add_zero_right _).symm, (JsNum.add_zero_right _).symm, rfl,
      le_refl _, by norm_num, le_refl _, by norm_num⟩

theorem scoreVolatility_bound (d : ℕ → ℚ) (bbU bbM bbL rsi smaS : ℕ → JsNum) (i : ℕ)
    (s : Scores) :
    ∃ db dr dt : ℚ,
      (scoreVolatility d bbU bbM bbL rsi smaS i s).bullishSignals =
        JsNum.add s.bullishSignals (.num db) ∧
      (scoreVolatility d bbU bbM bbL rsi smaS i s).bearishSignals =
        JsNum.add s.bearishSignals (.num dr) ∧
      (scoreVolatility d bbU bbM bbL rsi smaS i s).totalSignals =
        JsNum.add s.totalSignals (.num dt) ∧
      0 ≤ dt ∧ db ≤ dt ∧ dr ≤ dt ∧ 0 ≤ db ∧ 0 ≤ dr := by
  by_cases hguard : (!(bbU i).isNaN && !(bbL i).isNaN) = true
  · obtain ⟨db1, dr1, hb1, hr1, ht1, h1a, h1b, h1c, h1d⟩ :=
      scoreVolatilityEdge_bound d bbU bbM bbL rsi i
        { s with totalSignals := JsNum.add s.totalSignals (.num weights.volatility) }
    obtain ⟨db2, dr2, hb2, hr2, ht2, h2a, h2b, h2c, h2d⟩ :=
      scoreVolatilityNarrow_bound bbU bbM bbL smaS i
        (scoreVolatilityEdge d bbU bbM bbL rsi i
          { s with totalSignals := JsNum.add s.totalSignals (.num weights.volatility) })
    refine ⟨db1 + db2, dr1 + dr2, 15, ?_, ?_, ?_,
      by norm_num, by linarith, by linarith, by linarith, by linarith⟩
    · simp only [scoreVolatility, hguard, if_true]
      rw [hb2, hb1, JsNum.add_add_num]
    · simp only [scoreVolatility, hguard, if_true]
      rw [hr2, hr1, JsNum.add_add_num]
    · simp only [scoreVolatility, hguard, if_true]
      rw [ht2, ht1]
      simp [weights]
  · exact ⟨0, 0, 0,
      by simp [scoreVolatility, hguard, JsNum.add_zero_right],
      by simp [scoreVolatility, hguard, JsNum.add_zero_right],
      by simp [scoreVolatility, hguard, JsNum.add_zero_right],
      le_refl _, le_refl _, le_refl _, le_refl _, le_refl _⟩

theorem scoreTrend_bound (smaS smaL : ℕ → JsNum) (i : ℕ) (s : Scores)
    (hS : smaS i = .nan ∨ ∃ q, smaS i = .num q)
    (hL : smaL i = .nan ∨ ∃ q, smaL i = .num q) :
    ∃ db dr dt : ℚ,
      (scoreTrend smaS smaL i s).bullishSignals = JsNum.add s.bullishSignals (.num db) ∧
      (scoreTrend smaS smaL i s).bearishSignals = JsNum.add s.bearishSignals (.num dr) ∧
      (scoreTrend smaS smaL i s).totalSignals = JsNum.add s.totalSignals (.num dt) ∧
      0 ≤ dt ∧ db ≤ dt ∧ dr ≤ dt ∧
      ((∀ q, smaS i = .num q → 0 < q) → (∀ q, smaL i = .num q → 0 < q) →
        0 ≤ db ∧ 0 ≤ dr) := by
  have d100 : ∀ p : ℚ, JsNum.div (.num p) (.num 100) = .num (p / 100) :=
    fun p => JsNum.div_num_num p 100 (by norm_num)
  rcases hS with hSn | ⟨a, hSa⟩
  · exact ⟨0, 0, 0,
      by simp [scoreTrend, hSn, JsNum.isNaN, JsNum.add_zero_right],
      by simp [scoreTrend, hSn, JsNum.isNaN, JsNum.add_zero_right],
      by simp [scoreTrend, hSn, JsNum.isNaN, JsNum.add_zero_right],
      le_refl _, le_refl _, le_refl _, fun _ _ => ⟨le_refl _, le_refl _⟩⟩
  rcases hL with hLn | ⟨b, hLb⟩
  · exact ⟨0, 0, 0,
      by simp [scoreTrend, hSa, hLn, JsNum.isNaN, JsNum.add_zero_right],
      by simp [scoreTrend, hSa, hLn, JsNum.isNaN, JsNum.add_zero_right],
      by simp [scoreTrend, hSa, hLn, JsNum.isNaN, JsNum.add_zero_right],
      le_refl _, le_refl _, le_refl _, fun _ _ => ⟨le_refl _, le_refl _⟩⟩
  rcases lt_trichotomy b a with hab | hab | hab
  · -- bullish branch
    by_cases hfresh : (decide (1 < i) && JsNum.le (smaS (i - 1)) (smaL (i - 1))) = true
    · exact ⟨35, 0, 35,
        by simp [scoreTrend, hSa, hLb, JsNum.isNaN, JsNum.lt_num_num, hab, hfresh, weights],
        by simp [scoreTrend, hSa, hLb, JsNum.isNaN, JsNum.lt_num_num, hab, hfresh, weights,
          JsNum.add_zero_right],
        by simp [scoreTrend, hSa, hLb, JsNum.isNaN, JsNum.lt_num_num, hab, hfresh, weights],
        by norm_num, by norm_num, by norm_num, fun _ _ => ⟨by norm_num, by norm_num⟩⟩
    · by_cases hb0 : b = 0
      · have hdiv : JsNum.div (.num a) (.num b) = .inf := by
          have ha : 0 < a := hb0 ▸ hab
          simp [JsNum.div, hb0, ha]
        have hts : JsNum.min2 (.num 100)
            (JsNum.mul (JsNum.sub (JsNum.div (smaS i) (smaL i)) (.num 1)) (.num 1000)) =
            .num 100 := by
          rw [hSa, hLb, hdiv]
          simp [JsNum.sub, JsNum.neg, JsNum.add, JsNum.mul, JsNum.min2, JsNum.isNaN,
            JsNum.lt]
        refine ⟨35 * (7 / 10 + 3 / 10 * 100 / 100), 0, 35,
          ?_,
          by simp [scoreTrend, hSa, hLb, JsNum.isNaN, JsNum.lt_num_num, hab, hfresh,
            JsNum.add_zero_right],
          by simp [scoreTrend, hSa, hLb, JsNum.isNaN, JsNum.lt_num_num, hab, hfresh, weights],
          by norm_num, by norm_num, by norm_num, fun _ _ => ⟨by norm_num, by norm_num⟩⟩
        simp only [scoreTrend, hSa, hLb, JsNum.isNaN, Bool.not_false, Bool.and_self,
          if_true, JsNum.lt_num_num, decide_eq_true_eq]
        rw [if_pos hab, if_neg hfresh]
        rw [hSa, hLb] at hts
        rw [hts]
        simp only [weights, JsNum.mul_num_num, d100, JsNum.add_num_num]
      · have hts : JsNum.min2 (.num 100)
            (JsNum.mul (JsNum.sub (JsNum.div (smaS i) (smaL i)) (.num 1)) (.num 1000)) =
            .num (min 100 ((a / b - 1) * 1000)) := by
          rw [hSa, hLb, JsNum.div_num_num a b hb0, JsNum.sub_num_num, JsNum.mul_num_num,
            JsNum.min2_num_num]
        refine ⟨35 * (7 / 10 + 3 / 10 * min 100 ((a / b - 1) * 1000) / 100), 0, 35,
          ?_,
          by simp [scoreTrend, hSa, hLb, JsNum.isNaN, JsNum.lt_num_num, hab, hfresh,
            JsNum.add_zero_right],
          by simp [scoreTrend, hSa, hLb, JsNum.isNaN, JsNum.lt_num_num, hab, hfresh, weights],
          by norm_num, ?_, by norm_num, ?_⟩
        · simp only [scoreTrend, hSa, hLb, JsNum.isNaN, Bool.not_false, Bool.and_self,
            if_true, JsNum.lt_num_num, decide_eq_true_eq]
          rw [if_pos hab, if_neg hfresh]
          rw [hSa, hLb] at hts
          rw [hts]
          simp only [weights, JsNum.mul_num_num, d100, JsNum.add_num_num]
        · have hm : min 100 ((a / b - 1) * 1000) ≤ 100 := min_le_left _ _
          nlinarith
        · intro hps hpl
          have ha : 0 < a := hps a hSa
          have hb : 0 < b := hpl b hLb
          have hr : 1 < a / b := (one_lt_div hb).mpr hab
          have hm : 0 ≤ min 100 ((a / b - 1) * 1000) :=
            le_min (by norm_num) (by nlinarith)
          constructor
          · nlinarith
          · norm_num
  · -- equal: no branch fires, only the denominator
    exact ⟨0, 0, 35,
      by simp [scoreTrend, hSa, hLb, JsNum.isNaN, JsNum.lt_num_num, hab, weights,
        JsNum.add_zero_right],
      by simp [scoreTrend, hSa, hLb, JsNum.isNaN, JsNum.lt_num_num, hab, weights,
        JsNum.add_zero_right],
      by simp [scoreTrend, hSa, hLb, JsNum.isNaN, JsNum.lt_num_num, hab, weights],
      by norm_num, by norm_num, by norm_num, fun _ _ => ⟨le_refl _, le_refl _⟩⟩
  · -- bearish branch
    by_cases hfresh : (decide (1 < i) && JsNum.le (smaL (i - 1)) (smaS (i - 1))) = true
    · exact ⟨0, 35, 35,
        by simp [scoreTrend, hSa, hLb, JsNum.isNaN, JsNum.lt_num_num, hab, not_lt.mpr hab.le,
          hfresh, weights, JsNum.add_zero_right],
        by simp [scoreTrend, hSa, hLb, JsNum.isNaN, JsNum.lt_num_num, hab, not_lt.mpr hab.le,
          hfresh, weights],
        by simp [scoreTrend, hSa, hLb, JsNum.isNaN, JsNum.lt_num_num, hab, not_lt.mpr hab.le,
          hfresh, weights],
        by norm_num, by norm_num, by norm_num, fun _ _ => ⟨by norm_num, by norm_num⟩⟩
    · by_cases ha0 : a = 0
      · have hdiv : JsNum.div (.num b) (.num a) = .inf := by
          have hb : 0 < b := ha0 ▸ hab
          simp [JsNum.div, ha0, hb]
        have hts : JsNum.min2 (.num 100)
            (JsNum.mul (JsNum.sub (JsNum.div (smaL i) (smaS i)) (.num 1)) (.num 1000)) =
            .num 100 := by
          rw [hSa, hLb, hdiv]
          simp [JsNum.sub, JsNum.neg, JsNum.add, JsNum.mul, JsNum.min2, JsNum.isNaN,
            JsNum.lt]
        refine ⟨0, 35 * (7 / 10 + 3 / 10 * 100 / 100), 35,
          by simp [scoreTrend, hSa, hLb, JsNum.isNaN, JsNum.lt_num_num, hab,
            not_lt.mpr hab.le, hfresh, JsNum.add_zero_right],
          ?_,
          by simp [scoreTrend, hSa, hLb, JsNum.isNaN, JsNum.lt_num_num, hab,
            not_lt.mpr hab.le, hfresh, weights],
          by norm_num, by norm_num, by norm_num, fun _ _ => ⟨by norm_num, by norm_num⟩⟩
        simp only [scoreTrend, hSa, hLb, JsNum.isNaN, Bool.not_false, Bool.and_self,
          if_true, JsNum.lt_num_num, decide_eq_true_eq]
        rw [if_neg (not_lt.mpr hab.le), if_pos hab, if_neg hfresh]
        rw [hSa, hLb] at hts
        rw [hts]
        simp only [weights, JsNum.mul_num_num, d100, JsNum.add_num_num]
      · have hts : JsNum.min2 (.num 100)
            (JsNum.mul (JsNum.sub (JsNum.div (smaL i) (smaS i)) (.num 1)) (.num 1000)) =
            .num (min 100 ((b / a - 1) * 1000)) := by
          rw [hSa, hLb, JsNum.div_num_num b a ha0, JsNum.sub_num_num, JsNum.mul_num_num,
            JsNum.min2_num_num]
        refine ⟨0, 35 * (7 / 10 + 3 / 10 * min 100 ((b / a - 1) * 1000) / 100), 35,
          by simp [scoreTrend, hSa, hLb, JsNum.isNaN, JsNum.lt_num_num, hab,
            not_lt.mpr hab.le, hfresh, JsNum.add_zero_right],
          ?_,
          by simp [scoreTrend, hSa, hLb, JsNum.isNaN, JsNum.lt_num_num, hab,
            not_lt.mpr hab.le, hfresh, weights],
          by norm_num, by norm_num, ?_, ?_⟩
        · simp only [scoreTrend, hSa, hLb, JsNum.isNaN, Bool.not_false, Bool.and_self,
            if_true, JsNum.lt_num_num, decide_eq_true_eq]
          rw [if_neg (not_lt.mpr hab.le), if_pos hab, if_neg hfresh]
          rw [hSa, hLb] at hts
          rw [hts]
          simp only [weights, JsNum.mul_num_num, d100, JsNum.add_num_num]
        · have hm : min 100 ((b / a - 1) * 1000) ≤ 100 := min_le_left _ _
          nlinarith
        · intro hps hpl
          have ha : 0 < a := hps a hSa
          have hb : 0 < b := hpl b hLb
          have hr : 1 < b / a := (one_lt_div ha).mpr hab
          have hm : 0 ≤ min 100 ((b / a - 1) * 1000) :=
            le_min (by norm_num) (by nlinarith)
          exact ⟨by norm_num, by nlinarith⟩

theorem normalizeScores_bound (s : Scores) (B R T : ℚ)
    (hb : s.bullishSignals = .num B) (hr : s.bearishSignals = .num R)
    (ht : s.totalSignals = .num T)
    (hT0 : 0 ≤ T) (hBT : B ≤ T) (hRT : R ≤ T) (hB0 : 0 ≤ B) (hR0 : 0 ≤ R) :
    ∃ qb qr : ℚ, (normalizeScores s).bullishSignals = .num qb ∧
      (normalizeScores s).bearishSignals = .num qr ∧
      0 ≤ qb ∧ qb ≤ 100 ∧ 0 ≤ qr ∧ qr ≤ 100 := by
  by_cases hpos : (0 : ℚ) < T
  · have hT : ((T : ℚ)) ≠ 0 := ne_of_gt hpos
    refine ⟨B / T * 100, R / T * 100, ?_, ?_, ?_, ?_, ?_, ?_⟩
    · simp only [normalizeScores, ht, JsNum.lt_num_num, decide_eq_true_eq, if_pos hpos]
      rw [hb, JsNum.div_num_num B T hT, JsNum.mul_num_num]
    · simp only [normalizeScores, ht, JsNum.lt_num_num, decide_eq_true_eq, if_pos hpos]
      rw [hr, JsNum.div_num_num R T hT, JsNum.mul_num_num]
    · have := div_nonneg hB0 hT0
      nlinarith
    · have := (div_le_one hpos).mpr hBT
      nlinarith
    · have := div_nonneg hR0 hT0
      nlinarith
    · have := (div_le_one hpos).mpr hRT
      nlinarith
  · have hT : T = 0 := le_antisymm (not_lt.mp hpos) hT0
    have hB : B = 0 := le_antisymm (by linarith) hB0
    have hR : R = 0 := le_antisymm (by linarith) hR0
    refine ⟨0, 0, ?_, ?_, le_refl _, by norm_num, le_refl _, by norm_num⟩
    · simp only [normalizeScores, ht, JsNum.lt_num_num, decide_eq_true_eq, if_neg hpos]
      rw [hb, hB]
    · simp only [normalizeScores, ht, JsNum.lt_num_num, decide_eq_true_eq, if_neg hpos]
      rw [hr, hR]

theorem scoresPipeline_bound (d : ℕ → ℚ)
    (smaS smaL rsi bbU bbM bbL adxV pdiV ndiV : ℕ → JsNum)
    (patB patR : Bool) (i : ℕ)
    (hS : smaS i = .nan ∨ ∃ q, smaS i = .num q)
    (hL : smaL i = .nan ∨ ∃ q, smaL i = .num q)
    (hR : rsi i = .nan ∨ ∃ v, rsi i = .num v)
    (hps : ∀ q, smaS i = .num q → 0 < q)
    (hpl : ∀ q, smaL i = .num q → 0 < q) :
    ∃ qb qr : ℚ,
      (normalizeScores (scorePatterns patB patR (scoreADX adxV pdiV ndiV i
        (scoreVolatility d bbU bbM bbL rsi smaS i (scoreMomentum rsi i
          (scoreTrend smaS smaL i ⟨.num 0, .num 0, .num 0⟩)))))).bullishSignals =
        .num qb ∧
      (normalizeScores (scorePatterns patB patR (scoreADX adxV pdiV ndiV i
        (scoreVolatility d bbU bbM bbL rsi smaS i (scoreMomentum rsi i
          (scoreTrend smaS smaL i ⟨.num 0, .num 0, .num 0⟩)))))).bearishSignals =
        .num qr ∧
      0 ≤ qb ∧ qb ≤ 100 ∧ 0 ≤ qr ∧ qr ≤ 100 := by
  obtain ⟨db1, dr1, dt1, hb1, hr1, ht1, c1a, c1b, c1c, c1p⟩ :=
    scoreTrend_bound smaS smaL i ⟨.num 0, .num 0, .num 0⟩ hS hL
  obtain ⟨hdb1, hdr1⟩ := c1p hps hpl
  obtain ⟨db2, dr2, dt2, hb2, hr2, ht2, c2a, c2b, c2c, c2d, c2e⟩ :=
    scoreMomentum_bound rsi i (scoreTrend smaS smaL i ⟨.num 0, .num 0, .num 0⟩) hR
  obtain ⟨db3, dr3, dt3, hb3, hr3, ht3, c3a, c3b, c3c, c3d, c3e⟩ :=
    scoreVolatility_bound d bbU bbM bbL rsi smaS i
      (scoreMomentum rsi i (scoreTrend smaS smaL i ⟨.num 0, .num 0, .num 0⟩))
  obtain ⟨db4, dr4, dt4, hb4, hr4, ht4, c4a, c4b, c4c, c4d, c4e⟩ :=
    scoreADX_bound adxV pdiV ndiV i
      (scoreVolatility d bbU bbM bbL rsi smaS i
        (scoreMomentum rsi i (scoreTrend smaS smaL i ⟨.num 0, .num 0, .num 0⟩)))
  obtain ⟨db5, dr5, dt5, hb5, hr5, ht5, c5a, c5b, c5c, c5d, c5e⟩ :=
    scorePatterns_bound patB patR
      (scoreADX adxV pdiV ndiV i
        (scoreVolatility d bbU bbM bbL rsi smaS i
          (scoreMomentum rsi i (scoreTrend smaS smaL i ⟨.num 0, .num 0, .num 0⟩))))
  have hBull : (scorePatterns patB patR (scoreADX adxV pdiV ndiV i
      (scoreVolatility d bbU bbM bbL rsi smaS i (scoreMomentum rsi i
        (scoreTrend smaS smaL i ⟨.num 0, .num 0, .num 0⟩))))).bullishSignals =
      .num (0 + db1 + db2 + db3 + db4 + db5) := by
    rw [hb5, hb4, hb3, hb2, hb1]
    simp only [JsNum.add_num_num]
  have hBear : (scorePatterns patB patR (scoreADX adxV pdiV ndiV i
      (scoreVolatility d bbU bbM bbL rsi smaS i (scoreMomentum rsi i
        (scoreTrend smaS smaL i ⟨.num 0, .num 0, .num 0⟩))))).bearishSignals =
      .num (0 + dr1 + dr2 + dr3 + dr4 + dr5) := by
    rw [hr5, hr4, hr3, hr2, hr1]
    simp only [JsNum.add_num_num]
  have hTot : (scorePatterns patB patR (scoreADX adxV pdiV ndiV i
      (scoreVolatility d bbU bbM bbL rsi smaS i (scoreMomentum rsi i
        (scoreTrend smaS smaL i ⟨.num 0, .num 0, .num 0⟩))))).totalSignals =
      .num (0 + dt1 + dt2 + dt3 + dt4 + dt5) := by
    rw [ht5, ht4, ht3, ht2, ht1]
    simp only [JsNum.add_num_num]
  exact normalizeScores_bound _ _ _ _ hBull hBear hTot
    (by linarith) (by linarith) (by linarith) (by linarith) (by linarith)

/-- `calculateSMA` only produces finite values or NaN. -/
theorem calculateSMA_shape (d : ℕ → ℚ) (p i : ℕ) :
    calculateSMA d p i = .nan ∨ ∃ q, calculateSMA d p i = .num q := by
  unfold calculateSMA
  split
  · exact Or.inl rfl
  · by_cases hp : ((p : ℚ)) = 0
    · have hp0 : p = 0 := Nat.cast_eq_zero.mp hp
      subst hp0
      exact Or.inl (by simp [sliceSum, JsNum.div])
    · exact Or.inr ⟨_, JsNum.div_num_num _ _ hp⟩

/-- `calculateRSI` only produces finite values or NaN. -/
theorem calculateRSI_shape (d : ℕ → ℚ) (p i : ℕ) :
    calculateRSI d p i = .nan ∨ ∃ q, calculateRSI d p i = .num q := by
  unfold calculateRSI
  split
  · exact Or.inl rfl
  · exact Or.inr ⟨_, rfl⟩

/-- A window sum of positive entries is positive. -/
theorem sliceSum_pos (f : ℕ → ℚ) (a n : ℕ) (hn : 0 < n)
    (hf : ∀ k, k < n → 0 < f (a + k)) : 0 < sliceSum f a n := by
  induction n with
  | zero => omega
  | succ n ih =>
      rw [sliceSum]
      rcases Nat.eq_zero_or_pos n with hn0 | hn0
      · subst hn0
        simpa [sliceSum] using hf 0 (by omega)
      · have h1 := ih hn0 (fun k hk => hf k (by omega))
        have h2 := hf n (by omega)
        linarith

/-- On a positive price list, a defined SMA at the last index is
positive. -/
theorem calculateSMA_pos_of (data : List ℚ) (hpos : ∀ x ∈ data, 0 < x) (p : ℕ)
    (hp : 2 ≤ p) (q : ℚ)
    (h : calculateSMA (fun j => data.getD j 0) p (data.length - 1) = .num q) :
    0 < q := by
  have hget : ∀ j, j < data.length → 0 < data.getD j 0 := by
    intro j hj
    rw [List.getD_eq_getElem data 0 hj]
    exact hpos _ (data.getElem_mem hj)
  unfold calculateSMA at h
  split at h
  · exact absurd h (by simp)
  · rename_i hnlt
    have hplen : p ≤ data.length - 1 + 1 := by omega
    have hlen1 : 1 ≤ data.length := by omega
    have hpQ : ((p : ℚ)) ≠ 0 := Nat.cast_ne_zero.mpr (by omega)
    rw [JsNum.div_num_num _ _ hpQ] at h
    have hq : sliceSum (fun j => data.getD j 0) (data.length - 1 + 1 - p) p / p = q := by
      simpa using h
    subst hq
    apply div_pos
    · apply sliceSum_pos _ _ _ (by omega)
      intro k hk
      exact hget _ (by omega)
    · exact_mod_cast Nat.pos_of_ne_zero (by omega)

/-- C9 amended: for every fetched series of positive prices, both
normalized scores are finite and lie in [0,100]; neither accumulated
score can exceed the accumulated denominator.  (The original claim fails
for series containing non-positive prices, where the trend ratio term
can drive a score negative.) -/
theorem c9_scores_range (data : List ℚ) (interval : String) (jHi jLo : ℕ → ℚ)
    (f : ℚ → ℚ) (hpos : ∀ x ∈ data, 0 < x) :
    ∃ qb qr : ℚ,
      (analyzeData data interval jHi jLo f).bullishSignals = .num qb ∧
      (analyzeData data interval jHi jLo f).bearishSignals = .num qr ∧
      0 ≤ qb ∧ qb ≤ 100 ∧ 0 ≤ qr ∧ qr ≤ 100 := by
  have hp2 : 2 ≤ (if interval = "1d" then 50 else 10) := by split <;> norm_num
  have hp2' : 2 ≤ (if interval = "1d" then 200 else 30) := by split <;> norm_num
  simp only [analyzeData, analyzeCore]
  exact scoresPipeline_bound _ _ _ _ _ _ _ _ _ _ _ _ _
    (calculateSMA_shape _ _ _) (calculateSMA_shape _ _ _) (calculateRSI_shape _ _ _)
    (fun q h => calculateSMA_pos_of data hpos _ hp2 q h)
    (fun q h => calculateSMA_pos_of data hpos _ hp2' q h)

/-- C9 witness: the amended score-range bound instantiated on a concrete
positive ten-point weekly series. -/
theorem c9_scores_range_witness :
    (∀ x ∈ dataPos, 0 < x) ∧
    ∃ qb qr : ℚ,
      (analyzeData dataPos "1wk" jzero jzero sqrt0).bullishSignals = .num qb ∧
      (analyzeData dataPos "1wk" jzero jzero sqrt0).bearishSignals = .num qr ∧
      0 ≤ qb ∧ qb ≤ 100 ∧ 0 ≤ qr ∧ qr ≤ 100 :=
  ⟨by with_unfolding_all decide,
   c9_scores_range dataPos "1wk" jzero jzero sqrt0 (by with_unfolding_all decide)⟩
